import Mathlib

/-!
Verification of the ranobelib-to-epub pipeline core.

The development shallowly embeds the two components of the repository:
content acquisition (get_ranobe_content.py) and document assembly
(create_epub.py), together with the pipeline entry point (pipeline.py).
Pure string and tree manipulations are translated directly; network and
filesystem effects are represented by explicit oracles (a download-success
oracle, a per-attempt fetch oracle, an image-encoding environment), and
the sequences of external actions (download attempts, progress-callback
fractions, sleep pauses) are returned as explicit lists so that the
temporal claims can be stated about them.
-/

/-! ## Basic character-list utilities (Python string primitives) -/

/-- Characters accepted as decimal digits. -/
def is_digit (c : Char) : Bool := Char.isDigit c

/-- Value of a list of decimal digit characters, most significant first
(the positional reading used by Python's `float` on the integral and
fractional digit runs). -/
def digits_to_nat (cs : List Char) : Nat :=
  cs.foldl (fun n c => n * 10 + (c.toNat - 48)) 0

/-- Exact value of a decimal literal: the pair `(n, k)` denotes the
rational `n / 10 ^ k`.  Python compares the parsed values as doubles; for
the short decimal volume labels and chapter numbers of this domain the
double comparison agrees with the exact rational comparison, which is what
`dv_le` below implements. -/
abbrev DecVal := Int × Nat

/-- Models Python `float(s)` on the strings occurring in this domain:
an optional sign, a run of digits, an optional point followed by a run of
digits, at least one digit overall.  `none` models `ValueError`.
(Exponents, `inf`/`nan` and surrounding whitespace do not occur in volume
labels or chapter numbers.) -/
def py_float (s : String) : Option DecVal :=
  let cs := s.data
  let signed : Int × List Char :=
    match cs with
    | '-' :: rest => (-1, rest)
    | '+' :: rest => (1, rest)
    | _ => (1, cs)
  let ip := signed.2.takeWhile is_digit
  let rest := signed.2.drop ip.length
  match rest with
  | [] => if ip.isEmpty then none else some (signed.1 * (digits_to_nat ip : Int), 0)
  | '.' :: fp =>
    if fp.all is_digit && !(ip.isEmpty && fp.isEmpty) then
      some (signed.1 * ((digits_to_nat ip : Int) * Int.pow 10 fp.length + (digits_to_nat fp : Int)),
            fp.length)
    else none
  | _ => none

/-- Numeric comparison of two decimal values by cross multiplication;
equivalent to comparing the denoted rationals (`dv_le_iff`). -/
def dv_le (a b : DecVal) : Prop :=
  a.1 * Int.pow 10 b.2 ≤ b.1 * Int.pow 10 a.2

instance : DecidableRel dv_le :=
  fun a b => inferInstanceAs (Decidable (a.1 * Int.pow 10 b.2 ≤ b.1 * Int.pow 10 a.2))

/-- The rational denoted by a decimal value. -/
def dv_toRat (a : DecVal) : ℚ := (a.1 : ℚ) / (10 : ℚ) ^ a.2

/-- `list_starts s p` is true when `p` is an initial segment of `s`;
models Python `str.startswith`. -/
def list_starts : List Char → List Char → Bool
  | _, [] => true
  | [], _ :: _ => false
  | c :: cs, p :: ps => c == p && list_starts cs ps

/-- Models Python `s.startswith(p)`. -/
def str_starts (s p : String) : Bool := list_starts s.data p.data

/-- Drop everything from the first occurrence of `stop` on. -/
def take_until (stop : Char) (cs : List Char) : List Char :=
  cs.takeWhile (fun c => !(c == stop))

/-- Models `urllib.parse.urlparse(url).path` for the URL shapes reaching it
in `fix_img_links_in_html`: absolute `http(s)://netloc/path` URLs and
path-only references such as `/uploads/...`.  The fragment (after the first
hash) and the query (after the first question mark) are stripped; when a
scheme-and-netloc head `scheme://host` is present it is dropped and the
path starts at the first slash after the netloc. -/
def url_path_chars (cs0 : List Char) : List Char :=
  let cs := take_until '?' (take_until '#' cs0)
  let pre := cs.takeWhile (fun c => !(c == ':'))
  let post := cs.drop pre.length
  match post with
  | ':' :: '/' :: '/' :: rest => rest.dropWhile (fun c => !(c == '/'))
  | _ => cs

/-- Final path component: models `os.path.basename` on a slash-separated
path. -/
def basename_chars (cs : List Char) : List Char :=
  (cs.reverse.takeWhile (fun c => !(c == '/'))).reverse

/-- `os.path.basename(urlparse(src).path)` as used on image sources. -/
def url_basename (s : String) : String :=
  (basename_chars (url_path_chars s.data)).asString

/-- Stem of a final path component: models the first component of
`os.path.splitext`.  The split happens at the last dot, except when every
character before that dot is itself a dot (leading-dot names are kept
whole, as in CPython). -/
def stem_of_name (name : List Char) : List Char :=
  let r := name.reverse
  let ext := r.takeWhile (fun c => !(c == '.'))
  let rest := r.drop ext.length
  match rest with
  | [] => name
  | _ :: before =>
    if before.any (fun c => !(c == '.')) then before.reverse
    else name

/-- `os.path.splitext(s)[0]`: directory part (up to the last slash) kept,
stem rule applied to the final component. -/
def splitext_stem (s : String) : String :=
  let rev := s.data.reverse
  let name := (rev.takeWhile (fun c => !(c == '/'))).reverse
  let dir := (rev.drop name.length).reverse
  (dir ++ stem_of_name name).asString

/-! ## BeautifulSoup tag attributes

A parsed `<img>` tag's attributes are the assoc list of its attribute
dictionary (keys unique, as in BeautifulSoup).  The three operations below
model `tag.get`, `del tag.attrs[k]` and `tag[k] = v`. -/

/-- `tag.get(k)` on an attribute dictionary. -/
def attrs_get : List (String × String) → String → Option String
  | [], _ => none
  | a :: as_, k => if a.1 == k then some a.2 else attrs_get as_ k

/-- `del tag.attrs[k]` (keys are unique, so removing every occurrence
coincides with dictionary deletion). -/
def attrs_remove : List (String × String) → String → List (String × String)
  | [], _ => []
  | a :: as_, k => if a.1 == k then attrs_remove as_ k else a :: attrs_remove as_ k

/-- `tag[k] = v`: replace the binding of `k` in place, or append it. -/
def attrs_set : List (String × String) → String → String → List (String × String)
  | [], k, v => [(k, v)]
  | a :: as_, k, v => if a.1 == k then (k, v) :: as_ else a :: attrs_set as_ k v

/-! ## Acquisition: fix_img_links_in_html (get_ranobe_content.py 131-163)

The chapter body is modelled as the parsed soup: a list of nodes in which
the `<img>` tags found by `soup.find_all("img")` carry their attribute
dictionaries and all other markup is left uninterpreted.  The download oracle
`dl : String → Bool` is the success flag of `download_image(url, path)`
(one call = one bounded retry sequence); each call it receives is recorded
in the returned download list. -/

inductive HtmlNode where
  | img (attrs : List (String × String))
  | other (raw : String)
deriving DecidableEq

/-- Local filename chosen for a downloaded image:
`os.path.basename(urlparse(src).path)`, with the `img_unknown.jpg`
fallback when the basename is empty. -/
def img_local_name (src : String) : String :=
  let f := url_basename src
  if f = "" then "img_unknown.jpg" else f

/-- Per-tag body of the `fix_img_links_in_html` loop: strip any `loading`
attribute, then — when a non-empty `src` starts with `http` or
`/uploads/` — attempt the download and rewrite `src` to
`imgs/<basename>` only if the download succeeded.  Returns the new
attribute dictionary and the list of URLs passed to `download_image`. -/
def fix_img_tag (dl : String → Bool) (attrs : List (String × String)) :
    List (String × String) × List String :=
  let attrs1 := attrs_remove attrs ("loading")
  match attrs_get attrs1 ("src") with
  | none => (attrs1, [])
  | some src =>
    if src = "" then (attrs1, [])
    else if str_starts src ("http") || str_starts src ("/uploads/") then
      if dl src then (attrs_set attrs1 ("src") ("imgs/" ++ img_local_name src), [src])
      else (attrs1, [src])
    else (attrs1, [])

/-- `fix_img_links_in_html`: apply the tag fix to every `<img>` node of the
soup, leaving all other nodes untouched; second component is the
concatenated list of attempted downloads. -/
def fix_img_links_in_html (dl : String → Bool) :
    List HtmlNode → List HtmlNode × List String
  | [] => ([], [])
  | HtmlNode.img attrs :: rest =>
    let t := fix_img_tag dl attrs
    let r := fix_img_links_in_html dl rest
    (HtmlNode.img t.1 :: r.1, t.2 ++ r.2)
  | n :: rest =>
    let r := fix_img_links_in_html dl rest
    (n :: r.1, r.2)

/-! ## Attachments and structured (doc) content -/

/-- Attachment record as consumed by the code: `{url, filename}`. -/
structure Attachment where
  url : String
  filename : String
deriving DecidableEq

/-- Inline node of a paragraph: a `text` leaf or any other inline type
(ignored by the conversion). -/
inductive InlineNode where
  | text (s : String)
  | otherInline
deriving DecidableEq

/-- Block node of a ProseMirror doc.  An `image` node carries the list of
identifier strings found at `attrs.images[*].image`; a missing `image` key
is represented by the empty string (both are falsy in Python and are
skipped identically). -/
inductive DocNode where
  | paragraph (inlines : List InlineNode)
  | image (ids : List String)
  | otherNode
deriving DecidableEq

/-- A node tree whose `type` discriminator is `"doc"` (the callers check
the discriminator before invoking the conversion). -/
structure DocTree where
  content : List DocNode
deriving DecidableEq

/-! ## Assembly: _doc_to_html (create_epub.py 207-282) -/

/-- Lookup in the `name_map` dictionary of `_doc_to_html`: the dictionary
maps `os.path.splitext(att["filename"])[0]` to `att["filename"]` for each
attachment in order, later attachments overwriting earlier ones — so a
lookup returns the filename of the last attachment whose stem equals the
key. -/
def name_map_get (atts : List Attachment) (key : String) : Option String :=
  ((atts.reverse.find? (fun a => splitext_stem a.filename == key)).map (fun a => a.filename))

/-- The `<img>` tag emitted for a resolved attachment filename. -/
def img_tag_for (filename : String) : String :=
  "<img src=\"imgs/" ++ filename ++ "\"/>"

/-- HTML parts emitted for one `image` node: for each identifier, a falsy
(empty) identifier is skipped, an identifier whose lookup fails or
resolves to a falsy filename is skipped with a logged warning, and a
resolved identifier emits exactly one `<img>` tag pointing at the
attachment's filename under `imgs/`. -/
def image_node_parts (atts : List Attachment) (ids : List String) : List String :=
  ids.filterMap (fun n =>
    if n = "" then none
    else match name_map_get atts n with
      | some f => if f = "" then none else some (img_tag_for f)
      | none => none)

/-- Concatenation of the `text` leaves of a paragraph. -/
def paragraph_text (inlines : List InlineNode) : String :=
  inlines.foldl (fun acc i =>
    match i with
    | InlineNode.text s => acc ++ s
    | InlineNode.otherInline => acc) ""

/-- Python whitespace test used by `str.strip` for the emptiness check. -/
def is_space (c : Char) : Bool := Char.isWhitespace c

/-- `paragraph_text.strip()` is falsy: every character is whitespace. -/
def strip_empty (s : String) : Bool := s.data.all is_space

/-- HTML parts emitted for one doc node: paragraphs with non-blank text
become one `<p>` part, image nodes become their `<img>` parts, any other
node type is ignored. -/
def node_parts (atts : List Attachment) : DocNode → List String
  | DocNode.paragraph inlines =>
    let t := paragraph_text inlines
    if strip_empty t then [] else ["<p>" ++ t ++ "</p>"]
  | DocNode.image ids => image_node_parts atts ids
  | DocNode.otherNode => []

/-- All HTML parts of a doc's node list, in order. -/
def doc_html_parts (atts : List Attachment) : List DocNode → List String
  | [] => []
  | n :: rest => node_parts atts n ++ doc_html_parts atts rest

/-- `_doc_to_html`: the parts joined by newlines. -/
def doc_to_html (atts : List Attachment) (d : DocTree) : String :=
  String.intercalate "\n" (doc_html_parts atts d.content)

/-! ## Acquisition: content normalization and the chapter loop
(get_ranobe_content.py 165-178, 239-274) -/

/-- Content of a fetched chapter as stored and serialized: a raw HTML
string (kept as its parsed soup), a node tree whose `type` is `"doc"`, or
any other shape. -/
inductive RawContent where
  | htmlStr (nodes : List HtmlNode)
  | docTree (d : DocTree)
  | otherContent
deriving DecidableEq

/-- Discriminator: is this content the HTML-string shape? -/
def RawContent.is_html_str : RawContent → Bool
  | RawContent.htmlStr _ => true
  | _ => false

/-- `fix_img_links_in_doc` (get_ranobe_content.py 165-178): downloads the
file of every attachment into the image folder and returns the doc tree
unchanged — the image links inside the doc are not rewritten.  Second
component is the list of attempted downloads. -/
def fix_img_links_in_doc (d : DocTree) (atts : List Attachment) :
    DocTree × List String :=
  (d, atts.map (fun a => a.url))

/-- The content-shape dispatch of the chapter loop: a string goes through
`fix_img_links_in_html`, a doc tree through `fix_img_links_in_doc`, and
any other shape is left untouched. -/
def normalize_content (dl : String → Bool) (atts : List Attachment) :
    RawContent → RawContent × List String
  | RawContent.htmlStr nodes =>
    let r := fix_img_links_in_html dl nodes
    (RawContent.htmlStr r.1, r.2)
  | RawContent.docTree d =>
    let r := fix_img_links_in_doc d atts
    (RawContent.docTree r.1, r.2)
  | RawContent.otherContent => (RawContent.otherContent, [])

/-- Chapter payload returned by a successful `get_chapter_data` call. -/
structure ChapterData where
  id : Nat
  volume : String
  number : String
  name : String
  attachments : List Attachment
  content : RawContent
deriving DecidableEq

/-- Chapter record appended to `all_chapters` and serialized into
`ranobe.json`. -/
structure ChapterRec where
  id : Nat
  volume : String
  chapter : String
  name : String
  attachments : List Attachment
  content : RawContent
deriving DecidableEq

/-- Body of one successful iteration of the chapter loop: normalize the
content, then download every attachment once more; returns the record and
the list of downloads attempted during the iteration. -/
def mk_chapter_rec (dl : String → Bool) (cd : ChapterData) :
    ChapterRec × List String :=
  let n := normalize_content dl cd.attachments cd.content
  ({ id := cd.id, volume := cd.volume, chapter := cd.number, name := cd.name,
     attachments := cd.attachments, content := n.1 },
   n.2 ++ cd.attachments.map (fun a => a.url))

/-- The chapter loop over the stub list: a stub whose fetch returned
`None` is skipped with a logged warning, a successful fetch contributes
one record. -/
def build_chapters (fetch : Nat → Option ChapterData) (dl : String → Bool)
    (stubs : List Nat) : List ChapterRec :=
  stubs.filterMap (fun st =>
    match fetch st with
    | none => none
    | some cd => some (mk_chapter_rec dl cd).1)

/-! ## Acquisition: get_chapter_data retry loop (get_ranobe_content.py 74-99) -/

/-- Outcome of one `requests.get` attempt: a 200 response carrying the
chapter payload, a non-success status code, or a raised transport error
(caught by the `except` clause). -/
inductive AttemptResult where
  | success (data : ChapterData)
  | failStatus (code : Nat)
  | exn
deriving DecidableEq

/-- Whether the attempt returned status 200. -/
def AttemptResult.is_success : AttemptResult → Bool
  | AttemptResult.success _ => true
  | _ => false

/-- The `for attempt in range(1, max_retries + 1)` loop: `oracle i` is the
outcome of the i-th request; a success returns immediately, a failure
sleeps `sleep_time` seconds when further attempts remain.  Result: the
returned payload (or `none`), the number of request attempts made, and the
list of sleep pauses taken (in seconds, in order).  `fuel` counts the
remaining loop iterations, `max_retries - attempt + 1`. -/
def get_chapter_loop (oracle : Nat → AttemptResult) (max_retries sleep_time : Nat) :
    Nat → Nat → Option ChapterData × Nat × List Nat
  | _, 0 => (none, 0, [])
  | attempt, fuel + 1 =>
    match oracle attempt with
    | AttemptResult.success d => (some d, 1, [])
    | _ =>
      if attempt < max_retries then
        let r := get_chapter_loop oracle max_retries sleep_time (attempt + 1) fuel
        (r.1, r.2.1 + 1, sleep_time :: r.2.2)
      else (none, 1, [])

/-- `get_chapter_data` with its retry policy (defaults `max_retries = 5`,
`sleep_time = 1`). -/
def get_chapter_data (oracle : Nat → AttemptResult) (max_retries sleep_time : Nat) :
    Option ChapterData × Nat × List Nat :=
  get_chapter_loop oracle max_retries sleep_time 1 max_retries

/-! ## Assembly: _compress_image (create_epub.py 284-303)

`encode p` is the `Image.open / convert("RGB") / save(..., format="JPEG",
quality=...)` pipeline on the file at `p`: `some bytes` when it succeeds,
`none` when the imaging library raises (the `except` clause).  `file_bytes
p` is `Path(p).read_bytes()`.  The third result component counts the
open/convert/re-encode attempts performed by the call. -/

structure AssemblyEnv where
  encode : String → Option (List Nat)
  file_bytes : String → List Nat

/-- The run-local `self._image_cache`, keyed by source path. -/
abbrev ImageCache := List (String × List Nat)

/-- Cache lookup (`img_path in self._image_cache`). -/
def cache_lookup (c : ImageCache) (p : String) : Option (List Nat) :=
  ((c.find? (fun e => e.1 == p)).map (fun e => e.2))

/-- `_compress_image`: serve a cache hit without touching the file; on a
miss attempt the re-encode, store and return the result on success, and on
an imaging-library exception return the file's raw bytes without storing
anything in the cache. -/
def compress_image (env : AssemblyEnv) (cache : ImageCache) (p : String) :
    List Nat × ImageCache × Nat :=
  match cache_lookup cache p with
  | some data => (data, cache, 0)
  | none =>
    match env.encode p with
    | some data => (data, (p, data) :: cache, 1)
    | none => (env.file_bytes p, cache, 1)

/-! ## Assembly: volume grouping and ordering (create_epub.py 85-135) -/

/-- One step of filling `volumes_map` (a `defaultdict(list)`): append the
chapter to its volume's list, creating the key at the end on first sight
(dict keys keep insertion order). -/
def add_to_group (gs : List (String × List ChapterRec)) (c : ChapterRec) :
    List (String × List ChapterRec) :=
  if (gs.find? (fun g => g.1 == c.volume)).isSome then
    gs.map (fun g => if g.1 == c.volume then (g.1, g.2 ++ [c]) else g)
  else gs ++ [(c.volume, [c])]

/-- `volumes_map`: chapters grouped by their `volume` field, keys in
first-occurrence order, chapters in list order within each key. -/
def group_by_volume (chs : List ChapterRec) : List (String × List ChapterRec) :=
  chs.foldl add_to_group []

/-- `_vol_key` succeeds as a number exactly when `float(v)` does. -/
def vol_key (v : String) : DecVal := (py_float v).getD (0, 0)

/-- Numeric comparison of two volume labels via their `float` keys. -/
abbrev vol_le (a b : String) : Prop := dv_le (vol_key a) (vol_key b)

/-- Numeric comparison of two chapters via `float(c["chapter"])`. -/
def chap_key (c : ChapterRec) : DecVal := (py_float c.chapter).getD (0, 0)

/-- Ordering relation used to sort the chapters of one volume. -/
abbrev chap_le (a b : ChapterRec) : Prop := dv_le (chap_key a) (chap_key b)

/-- `sorted(volumes_map.keys(), key=_vol_key)`.  When every label parses
as a float the keys are all floats and the sort is numeric; when none
parses the keys are all strings and the sort is lexicographic; a mix of
float and string keys makes CPython's `sorted` raise `TypeError` on the
first cross-kind comparison (unavoidable once both kinds are present),
modelled by `Except.error`.  `List.insertionSort` is a stable sort and
therefore produces the same list as CPython's stable `sorted` for the
same key order. -/
def sort_volume_labels (vs : List String) : Except Unit (List String) :=
  if vs.all (fun v => (py_float v).isSome) then
    Except.ok (List.insertionSort vol_le vs)
  else if vs.all (fun v => (py_float v).isNone) then
    Except.ok (List.insertionSort (fun a b : String => a ≤ b) vs)
  else Except.error ()

/-- `sorted(volumes_map[vol], key=lambda c: float(c["chapter"]))`;
`float` raising `ValueError` on an unparseable chapter number is modelled
by `Except.error`. -/
def sort_chapters_py (chs : List ChapterRec) : Except Unit (List ChapterRec) :=
  if chs.all (fun c => (py_float c.chapter).isSome) then
    Except.ok (List.insertionSort chap_le chs)
  else Except.error ()

/-- The `for vol in sorted_vols` loop: one section per volume label, in
label order, holding that volume's chapters sorted by chapter number. -/
def build_sections (gs : List (String × List ChapterRec)) :
    List String → Except Unit (List (String × List ChapterRec))
  | [] => Except.ok []
  | v :: vs =>
    match sort_chapters_py ((((gs.find? (fun g => g.1 == v)).map (fun g => g.2))).getD []),
          build_sections gs vs with
    | Except.ok cs, Except.ok rest => Except.ok ((v, cs) :: rest)
    | _, _ => Except.error ()

/-- The grouping-and-ordering core of `create_epub`: group the record's
chapters by volume, sort the volume labels, and emit one section per
volume with its chapters sorted. -/
def create_epub_volumes (chs : List ChapterRec) :
    Except Unit (List (String × List ChapterRec)) :=
  match sort_volume_labels ((group_by_volume chs).map (fun g => g.1)) with
  | Except.error e => Except.error e
  | Except.ok vols => build_sections (group_by_volume chs) vols

/-! ## Assembly: _make_title_page (create_epub.py 305-337) -/

/-- The deserialized `ranobe.json` fields used by the title page; `none`
models an absent key (the code reads them with `dict.get`). -/
structure RanobeData where
  title? : Option String
  original_title? : Option String
  description? : Option String
  chapters : List ChapterRec
deriving DecidableEq

/-- The rendered title page: the three text slots and the `href` of the
forward link. -/
structure TitlePage where
  title_text : String
  orig_text : String
  desc_text : String
  next_link : String
deriving DecidableEq

/-- The forward-link computation: `link = "#"`; when the volume list is
non-empty, `sorted(volumes, key=lambda x: float(x))[0]` is tried — `sorted`
applies the key to every element, so a single unparseable label raises
`ValueError`, which the bare `except` swallows, leaving the dead link. -/
def first_volume_link (vols : List String) : String :=
  match vols with
  | [] => "#"
  | _ :: _ =>
    if vols.all (fun v => (py_float v).isSome) then
      match List.insertionSort vol_le vols with
      | [] => "#"
      | v :: _ => "volume_" ++ v ++ ".xhtml#volume_" ++ v
    else "#"

/-- `_make_title_page`: always built; `title` falls back to the placeholder
"Без названия", the original title and description fall back to the empty
string, and the forward link is computed from the chapters' volume
labels. -/
def make_title_page (rd : RanobeData) : TitlePage :=
  { title_text := rd.title?.getD ("Без названия"),
    orig_text := rd.original_title?.getD (""),
    desc_text := rd.description?.getD (""),
    next_link := first_volume_link (rd.chapters.map (fun c => c.volume)) }

/-! ## Pipeline progress milestones (pipeline.py 13-34,
get_ranobe_content.py 190-296)

`chapter_fracs` stands for the fractions emitted by `progress.tqdm` during
the chapter loop (all within `[0,1]`).  The fixed milestones surrounding
them are the literal `progress(...)` calls of the two functions, in
execution order. -/

/-- Fractions reported by `get_ranobe_content`: 0, 0.05, 0.1, 0.15, the
per-chapter fractions, 0.95, 1.0. -/
def acquisition_progress (chapter_fracs : List ℚ) : List ℚ :=
  [0, 1/20, 1/10, 3/20] ++ chapter_fracs ++ [19/20, 1]

/-- Fractions reported over a whole `run_pipeline` run: 0 and 0.1 from the
pipeline, then the acquisition sequence, then 0.8 and 1.0 from the
pipeline. -/
def pipeline_progress (chapter_fracs : List ℚ) : List ℚ :=
  [0, 1/10] ++ acquisition_progress chapter_fracs ++ [4/5, 1]

/-! ## Concrete fixtures used by witnesses and counterexamples -/

/-- A download oracle for which every download succeeds. -/
def dl_true : String → Bool := fun _ => true

/-- A download oracle for which every download fails (every retry
sequence exhausted). -/
def dl_false : String → Bool := fun _ => false

/-- A fetch oracle whose every attempt sees a 500 response. -/
def oracle_fail : Nat → AttemptResult := fun _ => AttemptResult.failStatus 500

/-- An image environment in which re-encoding always raises and the raw
file holds the bytes `[7]`. -/
def env_fail : AssemblyEnv :=
  { encode := fun _ => none, file_bytes := fun _ => [7] }

/-- An image environment in which re-encoding always succeeds with the
bytes `[1, 2, 3]`. -/
def env_ok : AssemblyEnv :=
  { encode := fun _ => some [1, 2, 3], file_bytes := fun _ => [7] }

/-- A doc tree holding a single unresolved image node. -/
def sample_doc : DocTree := { content := [DocNode.image ["8a57f2de"]] }

/-- A chapter payload carrying doc-shaped content. -/
def sample_doc_chapter : ChapterData :=
  { id := 11, volume := "1", number := "1", name := "c",
    attachments := [{ url := "/uploads/a.jpg", filename := "8a57f2de.jpg" }],
    content := RawContent.docTree sample_doc }

/-- A chapter record with the numeric volume label "1". -/
def ch_vol_num : ChapterRec :=
  { id := 1, volume := "1", chapter := "1", name := "a", attachments := [],
    content := RawContent.otherContent }

/-- A chapter record with the non-numeric volume label "a". -/
def ch_vol_str : ChapterRec :=
  { id := 2, volume := "a", chapter := "1", name := "b", attachments := [],
    content := RawContent.otherContent }

/-- A chapter record with the numeric volume label "2". -/
def ch_vol_num2 : ChapterRec :=
  { id := 3, volume := "2", chapter := "2", name := "c", attachments := [],
    content := RawContent.otherContent }

/-- A two-volume record with numeric labels out of order. -/
def chs_w : List ChapterRec := [ch_vol_num2, ch_vol_num]

/-- The sections `create_epub_volumes` produces for `chs_w`. -/
def secs_w : List (String × List ChapterRec) :=
  [("1", [ch_vol_num]), ("2", [ch_vol_num2])]

/-- A record with every title-page field missing and one chapter whose
volume label does not parse as a float. -/
def rd_missing : RanobeData :=
  { title? := none, original_title? := none, description? := none,
    chapters := [ch_vol_str] }

/-- A record with two chapters carrying numeric volume labels out of
order. -/
def rd_nums : RanobeData :=
  { title? := some "T", original_title? := none, description? := none,
    chapters := [ch_vol_num2, ch_vol_num] }

/-- A parsed image tag with a lazy-loading attribute and a remote
source. -/
def attrs_w : List (String × String) :=
  [("loading", "lazy"), ("src", "https://host/x/y.png")]

instance : IsTotal DecVal dv_le :=
  ⟨fun a b => le_total (a.1 * Int.pow 10 b.2) (b.1 * Int.pow 10 a.2)⟩

instance : IsTrans DecVal dv_le := by
  constructor
  intro a b c h1 h2
  unfold dv_le at h1 h2 ⊢
  simp only [Int.pow_eq] at h1 h2 ⊢
  have hp : (0 : Int) < 10 ^ b.2 := pow_pos (by norm_num) _
  have hc : (0 : Int) ≤ 10 ^ c.2 := le_of_lt (pow_pos (by norm_num) _)
  have ha : (0 : Int) ≤ 10 ^ a.2 := le_of_lt (pow_pos (by norm_num) _)
  have key : a.1 * 10 ^ c.2 * 10 ^ b.2 ≤ c.1 * 10 ^ a.2 * 10 ^ b.2 := by
    calc a.1 * 10 ^ c.2 * 10 ^ b.2 = a.1 * 10 ^ b.2 * 10 ^ c.2 := by ring
    _ ≤ b.1 * 10 ^ a.2 * 10 ^ c.2 := mul_le_mul_of_nonneg_right h1 hc
    _ = b.1 * 10 ^ c.2 * 10 ^ a.2 := by ring
    _ ≤ c.1 * 10 ^ b.2 * 10 ^ a.2 := mul_le_mul_of_nonneg_right h2 ha
    _ = c.1 * 10 ^ a.2 * 10 ^ b.2 := by ring
  exact le_of_mul_le_mul_right key hp

instance : IsTotal String vol_le :=
  ⟨fun a b => IsTotal.total (r := dv_le) (vol_key a) (vol_key b)⟩

instance : IsTrans String vol_le :=
  ⟨fun a b c h1 h2 => IsTrans.trans (r := dv_le) (vol_key a) (vol_key b) (vol_key c) h1 h2⟩

instance : IsTotal ChapterRec chap_le :=
  ⟨fun a b => IsTotal.total (r := dv_le) (chap_key a) (chap_key b)⟩

instance : IsTrans ChapterRec chap_le :=
  ⟨fun a b c h1 h2 => IsTrans.trans (r := dv_le) (chap_key a) (chap_key b) (chap_key c) h1 h2⟩

example : py_float ("1") = some (1, 0) := by decide
example : py_float ("1.5") = some (15, 1) := by decide
example : py_float ("a") = none := by decide
example : py_float ("") = none := by decide
example : py_float ("-2.25") = some (-225, 2) := by decide
example : url_basename ("https://host/x/y.png") = "y.png" := by decide
example : url_basename ("/uploads/a/b.png") = "b.png" := by decide
example : splitext_stem ("8a57f2de.jpg") = "8a57f2de" := by decide
example : splitext_stem (".bashrc") = ".bashrc" := by decide
example : str_starts ("https://h/x") ("http") = true := by decide

/-! ## Helper lemmas -/

/-- Cross-multiplied decimal comparison agrees with the comparison of the
denoted rationals. -/
theorem dv_le_iff (a b : DecVal) : dv_le a b ↔ dv_toRat a ≤ dv_toRat b := by
  unfold dv_le dv_toRat
  rw [div_le_div_iff₀ (by positivity) (by positivity)]
  rw [show ((10 : ℚ) ^ b.2) = ((Int.pow 10 b.2 : Int) : ℚ) by push_cast [Int.pow_eq]; ring]
  rw [show ((10 : ℚ) ^ a.2) = ((Int.pow 10 a.2 : Int) : ℚ) by push_cast [Int.pow_eq]; ring]
  rw [← Int.cast_mul, ← Int.cast_mul, Int.cast_le]

theorem attrs_get_remove_ne (attrs : List (String × String)) (k k2 : String)
    (h : k ≠ k2) : attrs_get (attrs_remove attrs k2) k = attrs_get attrs k := by
  induction attrs with
  | nil => rfl
  | cons a as_ ih =>
    by_cases h1 : a.1 = k2
    · have hne : (a.1 == k) = false := by
        simp only [beq_eq_false_iff_ne, ne_eq]
        intro hak
        exact h (by rw [← hak]; exact h1)
      have e1 : attrs_remove (a :: as_) k2 = attrs_remove as_ k2 := by
        simp [attrs_remove, h1]
      have e2 : attrs_get (a :: as_) k = attrs_get as_ k := by
        simp [attrs_get, hne]
      rw [e1, e2, ih]
    · have e1 : attrs_remove (a :: as_) k2 = a :: attrs_remove as_ k2 := by
        simp [attrs_remove, h1]
      rw [e1]
      by_cases h2 : a.1 = k
      · simp [attrs_get, h2]
      · have hne : (a.1 == k) = false := by simp [h2]
        simp [attrs_get, hne, ih]

theorem attrs_get_remove_same (attrs : List (String × String)) (k : String) :
    attrs_get (attrs_remove attrs k) k = none := by
  induction attrs with
  | nil => rfl
  | cons a as_ ih =>
    by_cases h1 : a.1 = k
    · have e1 : attrs_remove (a :: as_) k = attrs_remove as_ k := by
        simp [attrs_remove, h1]
      rw [e1, ih]
    · have e1 : attrs_remove (a :: as_) k = a :: attrs_remove as_ k := by
        simp [attrs_remove, h1]
      have hne : (a.1 == k) = false := by simp [h1]
      rw [e1]
      simp [attrs_get, hne, ih]

theorem attrs_get_set_same (attrs : List (String × String)) (k v : String) :
    attrs_get (attrs_set attrs k v) k = some v := by
  induction attrs with
  | nil => simp [attrs_set, attrs_get]
  | cons a as_ ih =>
    by_cases h1 : a.1 = k
    · simp [attrs_set, attrs_get, h1]
    · have hne : (a.1 == k) = false := by simp [h1]
      simp [attrs_set, attrs_get, hne, ih]

theorem attrs_get_set_ne (attrs : List (String × String)) (k v k1 : String)
    (h : k1 ≠ k) : attrs_get (attrs_set attrs k v) k1 = attrs_get attrs k1 := by
  have hkk1 : (k == k1) = false := by
    simp only [beq_eq_false_iff_ne, ne_eq]
    exact Ne.symm h
  induction attrs with
  | nil => simp [attrs_set, attrs_get, hkk1]
  | cons a as_ ih =>
    by_cases h1 : a.1 = k
    · have e1 : attrs_set (a :: as_) k v = (k, v) :: as_ := by
        simp [attrs_set, h1]
      have hak1 : (a.1 == k1) = false := by rw [h1]; exact hkk1
      rw [e1]
      simp [attrs_get, hkk1, hak1]
    · have e1 : attrs_set (a :: as_) k v = a :: attrs_set as_ k v := by
        simp [attrs_set, h1]
      rw [e1]
      simp [attrs_get, ih]

/-! ## C1 -/

/-- C1: the claim that acquisition-side normalization turns a doc-shaped
chapter content into an HTML string is false on the code: for a concrete
doc-shaped chapter, the serialized content field is still the node tree,
not an HTML string. -/
theorem C1_counterexample :
    (mk_chapter_rec dl_true sample_doc_chapter).1.content = RawContent.docTree sample_doc ∧
    RawContent.is_html_str (mk_chapter_rec dl_true sample_doc_chapter).1.content = false := by
  constructor
  · rfl
  · rfl

/-- C1 (amended): for a doc-shaped chapter content, `fix_img_links_in_doc`
downloads every attachment but returns the node tree unchanged, so the
chapter's serialized content field is the node tree itself (not an HTML
string); the HTML conversion of doc content happens only at assembly
time. -/
theorem C1_amended (dl : String → Bool) (cd : ChapterData) (d : DocTree)
    (h : cd.content = RawContent.docTree d) :
    (mk_chapter_rec dl cd).1.content = RawContent.docTree d ∧
    RawContent.is_html_str (mk_chapter_rec dl cd).1.content = false ∧
    ∀ att ∈ cd.attachments, att.url ∈ (mk_chapter_rec dl cd).2 := by
  refine ⟨?_, ?_, ?_⟩
  · simp [mk_chapter_rec, normalize_content, h, fix_img_links_in_doc]
  · simp [mk_chapter_rec, normalize_content, h, fix_img_links_in_doc, RawContent.is_html_str]
  · intro att hatt
    simp only [mk_chapter_rec, List.mem_append]
    right
    exact List.mem_map_of_mem (fun a => a.url) hatt

/-- C1 witness: the amended statement evaluated on the concrete doc-shaped
chapter. -/
theorem C1_witness :
    ("/uploads/a.jpg" : String) ∈ (mk_chapter_rec dl_true sample_doc_chapter).2 :=
  (C1_amended dl_true sample_doc_chapter sample_doc rfl).2.2
    { url := "/uploads/a.jpg", filename := "8a57f2de.jpg" } (by decide)

/-! ## C5 -/

/-- When every attempt from `attempt` through `max_retries` fails, the
retry loop (with `n` further iterations available after the current one)
makes exactly `n + 1` attempts, sleeps the fixed pause between consecutive
attempts only (`n` pauses), and returns `none`. -/
theorem get_chapter_loop_all_fail (oracle : Nat → AttemptResult) (max_retries sleep_time : Nat) :
    ∀ n attempt, attempt + n = max_retries →
      (∀ i, attempt ≤ i → i ≤ max_retries → (oracle i).is_success = false) →
      get_chapter_loop oracle max_retries sleep_time attempt (n + 1)
        = (none, n + 1, List.replicate n sleep_time) := by
  intro n
  induction n with
  | zero =>
    intro attempt hsum hfail
    have h1 := hfail attempt le_rfl (by omega)
    have hlt : ¬ attempt < max_retries := by omega
    unfold get_chapter_loop
    cases ho : oracle attempt with
    | success d => rw [ho] at h1; simp [AttemptResult.is_success] at h1
    | failStatus c => simp [hlt]
    | exn => simp [hlt]
  | succ m ih =>
    intro attempt hsum hfail
    have h1 := hfail attempt le_rfl (by omega)
    have hlt : attempt < max_retries := by omega
    have hr := ih (attempt + 1) (by omega) (fun i hi1 hi2 => hfail i (by omega) hi2)
    unfold get_chapter_loop
    cases ho : oracle attempt with
    | success d => rw [ho] at h1; simp [AttemptResult.is_success] at h1
    | failStatus c => simp [hlt, hr, List.replicate_succ]
    | exn => simp [hlt, hr, List.replicate_succ]

/-- C5: when every attempt of a chapter fetch sees a non-success response
or a transport error, exactly `max_retries = 5` request attempts are made
with a fixed `sleep_time` pause between consecutive attempts (four pauses,
not exponential), the call returns `none` instead of raising, and skipped
chapters contribute nothing to the final chapter list (the list equals the
one built from the successfully fetched stubs alone). -/
theorem C5_theorem :
    (∀ (oracle : Nat → AttemptResult) (sleep_time : Nat),
      (∀ i, 1 ≤ i → i ≤ 5 → (oracle i).is_success = false) →
      get_chapter_data oracle 5 sleep_time = (none, 5, List.replicate 4 sleep_time)) ∧
    (∀ (fetch : Nat → Option ChapterData) (dl : String → Bool) (stubs : List Nat),
      build_chapters fetch dl stubs
        = build_chapters fetch dl (stubs.filter (fun st => (fetch st).isSome))) := by
  constructor
  · intro oracle sleep_time hfail
    exact get_chapter_loop_all_fail oracle 5 sleep_time 4 1 rfl hfail
  · intro fetch dl stubs
    induction stubs with
    | nil => rfl
    | cons st rest ih =>
      cases hf : fetch st with
      | none => simp [build_chapters, List.filter, hf] at ih ⊢; exact ih
      | some cd => simp [build_chapters, List.filter, hf] at ih ⊢; exact ih

/-- C5 witness: a fetch whose five attempts all see a 500 response makes
exactly five attempts, four fixed two-second pauses, and returns `none`. -/
theorem C5_witness :
    get_chapter_data oracle_fail 5 2 = (none, 5, List.replicate 4 2) :=
  C5_theorem.1 oracle_fail 2 (fun _ _ _ => rfl)

/-! ## C6 -/

/-- C6: the claim that every source path is compressed exactly once per
run is false on the code: for a path whose re-encode raises, nothing is
stored in the cache, so the second call repeats the open/re-encode attempt
(work count 1, not 0) instead of being served from the cache. -/
theorem C6_counterexample :
    compress_image env_fail [] ("x") = ([7], [], 1) ∧
    compress_image env_fail (compress_image env_fail [] ("x")).2.1 ("x") = ([7], [], 1) ∧
    (compress_image env_fail (compress_image env_fail [] ("x")).2.1 ("x")).2.2 ≠ 0 := by
  refine ⟨rfl, rfl, ?_⟩
  decide

/-- C6 (amended): for every source image path whose open/convert/re-encode
succeeds, compressing it twice within one run returns byte-identical
results and performs the re-encode work exactly once — the second call is
a cache hit (no work, cache unchanged) keyed by the source path. -/
theorem C6_amended (env : AssemblyEnv) (cache : ImageCache) (p : String) (data : List Nat)
    (henc : env.encode p = some data) (hmiss : cache_lookup cache p = none) :
    (compress_image env cache p).1 = data ∧
    (compress_image env cache p).2.2 = 1 ∧
    compress_image env (compress_image env cache p).2.1 p
      = (data, (compress_image env cache p).2.1, 0) := by
  have h1 : compress_image env cache p = (data, (p, data) :: cache, 1) := by
    simp [compress_image, hmiss, henc]
  refine ⟨by rw [h1], by rw [h1], ?_⟩
  rw [h1]
  simp [compress_image, cache_lookup]

/-- C6 witness: the amended statement evaluated in the always-successful
environment from the empty cache. -/
theorem C6_witness :
    compress_image env_ok (compress_image env_ok [] ("x")).2.1 ("x")
      = ([1, 2, 3], (compress_image env_ok [] ("x")).2.1, 0) :=
  (C6_amended env_ok [] ("x") [1, 2, 3] rfl rfl).2.2

/-! ## C10 -/

/-- C10: when the imaging library raises while opening or re-encoding an
image, `_compress_image` returns the source file's raw bytes, stores
nothing in the cache (the cache state is unchanged), and a subsequent call
with the same path misses the cache and re-reads the file; the exception
is swallowed (the function is total and returns normally). -/
theorem C10_theorem (env : AssemblyEnv) (cache : ImageCache) (p : String)
    (hmiss : cache_lookup cache p = none) (henc : env.encode p = none) :
    compress_image env cache p = (env.file_bytes p, cache, 1) ∧
    compress_image env (compress_image env cache p).2.1 p
      = (env.file_bytes p, cache, 1) := by
  have h1 : compress_image env cache p = (env.file_bytes p, cache, 1) := by
    simp [compress_image, hmiss, henc]
  exact ⟨h1, by rw [h1]; exact h1⟩

/-- C10 witness: the failing environment evaluated from the empty cache. -/
theorem C10_witness :
    compress_image env_fail [] ("x") = (env_fail.file_bytes ("x"), [], 1) :=
  (C10_theorem env_fail [] ("x") rfl rfl).1

/-! ## C3 -/

/-- A successful `name_map` lookup returns the filename of an attachment
of the list whose stem is exactly the looked-up key. -/
theorem name_map_get_some (atts : List Attachment) (key f : String)
    (h : name_map_get atts key = some f) :
    ∃ att ∈ atts, att.filename = f ∧ splitext_stem att.filename = key := by
  unfold name_map_get at h
  cases hfind : atts.reverse.find? (fun a => splitext_stem a.filename == key) with
  | none => rw [hfind] at h; simp at h
  | some a =>
    rw [hfind] at h
    simp only [Option.map_some'] at h
    have hmem := List.mem_of_find?_eq_some hfind
    have hp := List.find?_some hfind
    rw [List.mem_reverse] at hmem
    refine ⟨a, hmem, Option.some.inj h, ?_⟩
    exact beq_iff_eq.mp hp

/-- Every part emitted for an image node is an `<img>` tag whose filename
belongs to an attachment of the chapter whose stem exactly matches one of
the node's identifiers. -/
theorem image_node_parts_shape (atts : List Attachment) (ids : List String) (part : String)
    (h : part ∈ image_node_parts atts ids) :
    ∃ att ∈ atts, part = img_tag_for att.filename ∧
      ∃ n ∈ ids, splitext_stem att.filename = n := by
  unfold image_node_parts at h
  rw [List.mem_filterMap] at h
  obtain ⟨n, hn, heq⟩ := h
  by_cases hn0 : n = ""
  · rw [if_pos hn0] at heq; exact absurd heq (by simp)
  · rw [if_neg hn0] at heq
    cases hmap : name_map_get atts n with
    | none => rw [hmap] at heq; exact absurd heq (by simp)
    | some f =>
      rw [hmap] at heq
      dsimp only at heq
      by_cases hf0 : f = ""
      · rw [if_pos hf0] at heq; exact absurd heq (by simp)
      · rw [if_neg hf0] at heq
        obtain ⟨att, hmem, hfn, hstem⟩ := name_map_get_some atts n f hmap
        exact ⟨att, hmem, by rw [hfn]; exact (Option.some.inj heq).symm, n, hn, hstem⟩

/-- C3: every `<img>` tag in the HTML produced from a structured node tree
references a filename present in that chapter's attachment list (all other
parts are paragraph blocks); the identifier-to-attachment match is exact
string equality of the node identifier with the attachment filename's
stem; and an identifier with no matching attachment produces zero tags
(only a logged warning). -/
theorem C3_theorem :
    (∀ (atts : List Attachment) (nodes : List DocNode) (part : String),
        part ∈ doc_html_parts atts nodes →
        (∃ att ∈ atts, part = img_tag_for att.filename) ∨
        (∃ t, part = "<p>" ++ t ++ "</p>")) ∧
    (∀ (atts : List Attachment) (key f : String),
        name_map_get atts key = some f →
        ∃ att ∈ atts, att.filename = f ∧ splitext_stem att.filename = key) ∧
    (∀ (atts : List Attachment) (ids : List String),
        (∀ att ∈ atts, splitext_stem att.filename ∉ ids) →
        image_node_parts atts ids = []) := by
  refine ⟨?_, name_map_get_some, ?_⟩
  · intro atts nodes
    induction nodes with
    | nil => intro part hp; simp [doc_html_parts] at hp
    | cons nd rest ih =>
      intro part hp
      simp only [doc_html_parts, List.mem_append] at hp
      cases hp with
      | inr h => exact ih part h
      | inl h =>
        cases nd with
        | paragraph inlines =>
          simp only [node_parts] at h
          split at h
          · simp at h
          · rw [List.mem_singleton] at h
            exact Or.inr ⟨paragraph_text inlines, h⟩
        | image ids =>
          obtain ⟨att, hmem, hpart, _⟩ := image_node_parts_shape atts ids part h
          exact Or.inl ⟨att, hmem, hpart⟩
        | otherNode => simp [node_parts] at h
  · intro atts ids hno
    unfold image_node_parts
    rw [List.filterMap_eq_nil_iff]
    intro n hn
    by_cases hn0 : n = ""
    · rw [if_pos hn0]
    · rw [if_neg hn0]
      have hnone : name_map_get atts n = none := by
        unfold name_map_get
        rw [List.find?_eq_none.mpr]
        · rfl
        · intro a ha
          rw [List.mem_reverse] at ha
          simp only [beq_iff_eq]
          intro hstem
          exact hno a ha (hstem ▸ hn)
      rw [hnone]

/-- C3 witness: an identifier matching no attachment stem produces zero
tags. -/
theorem C3_witness :
    image_node_parts [{ url := "u", filename := "a.jpg" }] ["b"] = [] :=
  C3_theorem.2.2 [{ url := "u", filename := "a.jpg" }] ["b"] (by decide)

/-! ## C7 and C9: fix_img_links_in_html tag behaviour -/

/-- Reduction of the per-tag fix for a tag whose `src` is remote or
`/uploads/`-relative: the loading attribute is stripped, the download is
attempted once, and the rewrite happens only on success. -/
theorem fix_img_tag_remote (dl : String → Bool) (attrs : List (String × String)) (src : String)
    (hsrc : attrs_get attrs ("src") = some src) (hne : src ≠ "")
    (hstart : str_starts src ("http") = true ∨ str_starts src ("/uploads/") = true) :
    fix_img_tag dl attrs =
      (if dl src then
        (attrs_set (attrs_remove attrs ("loading")) ("src") ("imgs/" ++ img_local_name src), [src])
       else (attrs_remove attrs ("loading"), [src])) := by
  unfold fix_img_tag
  have h1 : attrs_get (attrs_remove attrs ("loading")) ("src") = some src := by
    rw [attrs_get_remove_ne _ _ _ (by decide)]
    exact hsrc
  simp only [h1, if_neg hne]
  rcases hstart with h | h
  · rw [h]
    simp
  · rw [h]
    simp

/-- Reduction of the per-tag fix for a tag whose `src` is neither remote
nor `/uploads/`-relative: only the loading attribute is stripped and no
download is attempted. -/
theorem fix_img_tag_local (dl : String → Bool) (attrs : List (String × String)) (src : String)
    (hsrc : attrs_get attrs ("src") = some src) (hne : src ≠ "")
    (h1 : str_starts src ("http") = false) (h2 : str_starts src ("/uploads/") = false) :
    fix_img_tag dl attrs = (attrs_remove attrs ("loading"), []) := by
  unfold fix_img_tag
  have hg : attrs_get (attrs_remove attrs ("loading")) ("src") = some src := by
    rw [attrs_get_remove_ne _ _ _ (by decide)]
    exact hsrc
  simp only [hg, if_neg hne, h1, h2]
  simp

/-- C7: the claim that normalization always rewrites a remote image source
to the local path is false on the code: when the download fails, the tag
keeps its original remote `src` (the download is still attempted exactly
once and `loading` is still stripped). -/
theorem C7_counterexample :
    attrs_get (fix_img_tag dl_false attrs_w).1 ("src") = some ("https://host/x/y.png") ∧
    attrs_get (fix_img_tag dl_false attrs_w).1 ("src") ≠ some ("imgs/y.png") ∧
    (fix_img_tag dl_false attrs_w).2 = ["https://host/x/y.png"] := by
  refine ⟨by decide, by decide, by decide⟩

/-- C7 (amended): for every `<img>` tag whose `src` is remote or
`/uploads/`-relative, normalization triggers exactly one download attempt
sequence to the original URL and strips any `loading` attribute, and when
the download succeeds the tag's `src` becomes the local relative path
`imgs/<basename of the URL path>`. -/
theorem C7_amended (dl : String → Bool) (attrs : List (String × String)) (src : String)
    (hsrc : attrs_get attrs ("src") = some src) (hne : src ≠ "")
    (hstart : str_starts src ("http") = true ∨ str_starts src ("/uploads/") = true) :
    (fix_img_tag dl attrs).2 = [src] ∧
    attrs_get (fix_img_tag dl attrs).1 ("loading") = none ∧
    (dl src = true →
      attrs_get (fix_img_tag dl attrs).1 ("src") = some ("imgs/" ++ img_local_name src)) := by
  have hred := fix_img_tag_remote dl attrs src hsrc hne hstart
  by_cases hdl : dl src = true
  · rw [hred, if_pos hdl]
    refine ⟨rfl, ?_, fun _ => ?_⟩
    · rw [attrs_get_set_ne _ _ _ _ (by decide)]
      exact attrs_get_remove_same attrs ("loading")
    · exact attrs_get_set_same _ _ _
  · rw [hred, if_neg hdl]
    exact ⟨rfl, attrs_get_remove_same attrs ("loading"), fun hcon => absurd hcon hdl⟩

/-- C7 witness: the spec's concrete example, with the download
succeeding. -/
theorem C7_witness :
    (fix_img_tag dl_true attrs_w).2 = ["https://host/x/y.png"] ∧
    attrs_get (fix_img_tag dl_true attrs_w).1 ("src")
      = some ("imgs/" ++ img_local_name ("https://host/x/y.png")) := by
  have h := C7_amended dl_true attrs_w ("https://host/x/y.png")
    (by decide) (by decide) (Or.inl (by decide))
  exact ⟨h.1, h.2.2 rfl⟩

/-- C9: when the download of a remote image fails, the tag's `src` is left
at its original remote value while the `loading` attribute is still
removed; and a `src` starting with neither `http` nor `/uploads/` triggers
no download and is left unchanged (with `loading` removed). -/
theorem C9_theorem (dl : String → Bool) (attrs : List (String × String)) (src : String)
    (hsrc : attrs_get attrs ("src") = some src) (hne : src ≠ "") :
    ((str_starts src ("http") = true ∨ str_starts src ("/uploads/") = true) →
      dl src = false →
      (fix_img_tag dl attrs).1 = attrs_remove attrs ("loading") ∧
      attrs_get (fix_img_tag dl attrs).1 ("src") = some src ∧
      attrs_get (fix_img_tag dl attrs).1 ("loading") = none ∧
      (fix_img_tag dl attrs).2 = [src]) ∧
    (str_starts src ("http") = false → str_starts src ("/uploads/") = false →
      (fix_img_tag dl attrs).1 = attrs_remove attrs ("loading") ∧
      attrs_get (fix_img_tag dl attrs).1 ("src") = some src ∧
      attrs_get (fix_img_tag dl attrs).1 ("loading") = none ∧
      (fix_img_tag dl attrs).2 = []) := by
  constructor
  · intro hstart hdl
    have hred := fix_img_tag_remote dl attrs src hsrc hne hstart
    have hnotdl : ¬ dl src = true := by rw [hdl]; exact Bool.false_ne_true
    rw [hred, if_neg hnotdl]
    refine ⟨rfl, ?_, attrs_get_remove_same attrs ("loading"), rfl⟩
    rw [attrs_get_remove_ne _ _ _ (by decide)]
    exact hsrc
  · intro h1 h2
    have hred := fix_img_tag_local dl attrs src hsrc hne h1 h2
    rw [hred]
    refine ⟨rfl, ?_, attrs_get_remove_same attrs ("loading"), rfl⟩
    rw [attrs_get_remove_ne _ _ _ (by decide)]
    exact hsrc

/-- C9 witness: a failing download on the spec's concrete example leaves
the remote `src` in place. -/
theorem C9_witness :
    (fix_img_tag dl_false attrs_w).1 = attrs_remove attrs_w ("loading") ∧
    attrs_get (fix_img_tag dl_false attrs_w).1 ("src") = some ("https://host/x/y.png") ∧
    attrs_get (fix_img_tag dl_false attrs_w).1 ("loading") = none ∧
    (fix_img_tag dl_false attrs_w).2 = ["https://host/x/y.png"] :=
  (C9_theorem dl_false attrs_w ("https://host/x/y.png") (by decide) (by decide)).1
    (Or.inl (by decide)) rfl

/-! ## C4: volume and chapter ordering -/

/-- `add_to_group` either keeps the key list unchanged or appends the new
chapter's volume label at the end. -/
theorem add_to_group_keys (gs : List (String × List ChapterRec)) (c : ChapterRec) :
    (add_to_group gs c).map (fun g => g.1) = gs.map (fun g => g.1) ∨
    (add_to_group gs c).map (fun g => g.1) = gs.map (fun g => g.1) ++ [c.volume] := by
  unfold add_to_group
  by_cases hf : (gs.find? (fun g => g.1 == c.volume)).isSome
  · left
    rw [if_pos hf, List.map_map]
    refine List.map_congr_left ?_
    intro g _
    dsimp only [Function.comp]
    split
    · rfl
    · rfl
  · right
    rw [if_neg hf, List.map_append]
    rfl

/-- Every key of the grouped map is the volume label of some chapter of
the record. -/
theorem group_keys_mem (chs : List ChapterRec) (k : String)
    (h : k ∈ (group_by_volume chs).map (fun g => g.1)) :
    ∃ c ∈ chs, c.volume = k := by
  suffices hgen : ∀ (acc : List (String × List ChapterRec)),
      k ∈ ((chs.foldl add_to_group acc).map (fun g => g.1)) →
      k ∈ acc.map (fun g => g.1) ∨ ∃ c ∈ chs, c.volume = k by
    rcases hgen [] h with h1 | h1
    · exact absurd h1 (List.not_mem_nil k)
    · exact h1
  clear h
  induction chs with
  | nil => intro acc h; exact Or.inl h
  | cons c rest ih =>
    intro acc h
    rw [List.foldl_cons] at h
    rcases ih (add_to_group acc c) h with h1 | h1
    · rcases add_to_group_keys acc c with he | he
      · rw [he] at h1
        exact Or.inl h1
      · rw [he, List.mem_append, List.mem_singleton] at h1
        rcases h1 with h1 | rfl
        · exact Or.inl h1
        · exact Or.inr ⟨c, List.mem_cons_self c rest, rfl⟩
    · obtain ⟨c2, hc2, hv2⟩ := h1
      exact Or.inr ⟨c2, List.mem_cons_of_mem c hc2, hv2⟩

/-- When every volume label parses as a float, the sort takes the numeric
branch. -/
theorem sort_volume_labels_num (vs : List String)
    (h : vs.all (fun v => (py_float v).isSome) = true) :
    sort_volume_labels vs = Except.ok (List.insertionSort vol_le vs) := by
  unfold sort_volume_labels
  rw [if_pos h]

/-- When no volume label parses as a float (and at least one label exists,
so the numeric test fails), the sort takes the lexicographic branch. -/
theorem sort_volume_labels_lex (vs : List String)
    (hnum : vs.all (fun v => (py_float v).isSome) = false)
    (hnone : vs.all (fun v => (py_float v).isNone) = true) :
    sort_volume_labels vs
      = Except.ok (List.insertionSort (fun a b : String => a ≤ b) vs) := by
  unfold sort_volume_labels
  rw [hnum]
  rw [if_neg (by exact Bool.false_ne_true), if_pos hnone]

/-- A successfully sorted chapter list is sorted by the numeric chapter
key. -/
theorem sort_chapters_py_sorted (chs l2 : List ChapterRec)
    (h : sort_chapters_py chs = Except.ok l2) : List.Sorted chap_le l2 := by
  unfold sort_chapters_py at h
  split at h
  · exact (Except.ok.inj h) ▸ List.sorted_insertionSort chap_le chs
  · exact absurd h (by simp)

/-- A successful `build_sections` call emits one section per volume label
in the order given, each with its chapters sorted by the numeric chapter
key. -/
theorem build_sections_spec (gs : List (String × List ChapterRec)) :
    ∀ (vols : List String) (secs : List (String × List ChapterRec)),
      build_sections gs vols = Except.ok secs →
      secs.map (fun s => s.1) = vols ∧ ∀ sec ∈ secs, List.Sorted chap_le sec.2 := by
  intro vols
  induction vols with
  | nil =>
    intro secs h
    have h2 : secs = [] := (Except.ok.inj h).symm
    subst h2
    exact ⟨rfl, by simp⟩
  | cons v vs ih =>
    intro secs h
    unfold build_sections at h
    cases hc : sort_chapters_py (((gs.find? (fun g => g.1 == v)).map (fun g => g.2)).getD []) with
    | error e =>
      rw [hc] at h
      cases hr : build_sections gs vs with
      | error e2 => rw [hr] at h; exact absurd h (by simp)
      | ok rest => rw [hr] at h; exact absurd h (by simp)
    | ok cs =>
      rw [hc] at h
      cases hr : build_sections gs vs with
      | error e2 => rw [hr] at h; exact absurd h (by simp)
      | ok rest =>
        rw [hr] at h
        dsimp only at h
        have hsecs : secs = (v, cs) :: rest := (Except.ok.inj h).symm
        subst hsecs
        obtain ⟨hl, hs⟩ := ih rest hr
        refine ⟨by rw [List.map_cons, hl], ?_⟩
        intro sec hsec
        rcases List.mem_cons.mp hsec with rfl | hsec2
        · exact sort_chapters_py_sorted _ cs hc
        · exact hs sec hsec2

/-- C4: the claim that the assembled document orders its volumes for every
loadable record, including ones mixing numeric and non-numeric volume
labels, is false on the code: on a record with volume labels "1" and "a",
the volume sort compares a float key with a string key and raises
`TypeError` (modelled by `Except.error`), so no assembled document is
produced at all. -/
theorem C4_counterexample :
    (py_float ch_vol_num.volume).isSome = true ∧
    (py_float ch_vol_str.volume).isSome = false ∧
    create_epub_volumes [ch_vol_num, ch_vol_str] = Except.error () :=
  ⟨by decide, by decide, rfl⟩

/-- C4 (amended): whenever assembly succeeds, each volume section's
chapters are in non-decreasing order of numeric chapter number; and the
volume sections are in non-decreasing label order — numeric when every
volume label of the record parses as a float, lexicographic when none
does; a record mixing the two kinds raises a `TypeError` during the sort
(no document is produced). -/
theorem C4_amended (chs : List ChapterRec) (secs : List (String × List ChapterRec))
    (h : create_epub_volumes chs = Except.ok secs) :
    (∀ sec ∈ secs,
      List.Sorted (fun a b => dv_toRat (chap_key a) ≤ dv_toRat (chap_key b)) sec.2) ∧
    ((∀ c ∈ chs, (py_float c.volume).isSome = true) →
      List.Sorted (fun a b => dv_toRat (vol_key a) ≤ dv_toRat (vol_key b))
        (secs.map (fun s => s.1))) ∧
    ((∀ c ∈ chs, (py_float c.volume).isNone = true) →
      List.Sorted (fun a b : String => a ≤ b) (secs.map (fun s => s.1))) := by
  unfold create_epub_volumes at h
  cases hs : sort_volume_labels ((group_by_volume chs).map (fun g => g.1)) with
  | error e => rw [hs] at h; exact absurd h (by simp)
  | ok vols =>
    rw [hs] at h
    dsimp only at h
    obtain ⟨hlabels, hsorted⟩ := build_sections_spec (group_by_volume chs) vols secs h
    refine ⟨?_, ?_, ?_⟩
    · intro sec hsec
      exact List.Pairwise.imp (fun hab => (dv_le_iff _ _).mp hab) (hsorted sec hsec)
    · intro hall
      have hkeys : ((group_by_volume chs).map (fun g => g.1)).all
          (fun v => (py_float v).isSome) = true := by
        rw [List.all_eq_true]
        intro v hv
        obtain ⟨c, hc, hcv⟩ := group_keys_mem chs v hv
        exact hcv ▸ hall c hc
      rw [sort_volume_labels_num _ hkeys] at hs
      have hv : vols
          = List.insertionSort vol_le ((group_by_volume chs).map (fun g => g.1)) :=
        (Except.ok.inj hs).symm
      rw [hlabels, hv]
      exact List.Pairwise.imp (fun hab => (dv_le_iff _ _).mp hab)
        (List.sorted_insertionSort vol_le _)
    · intro hall
      cases hnum : ((group_by_volume chs).map (fun g => g.1)).all
          (fun v => (py_float v).isSome) with
      | true =>
        have hkeys_nil : (group_by_volume chs).map (fun g => g.1) = [] := by
          cases hk : (group_by_volume chs).map (fun g => g.1) with
          | nil => rfl
          | cons k ks =>
            have hkmem : k ∈ (group_by_volume chs).map (fun g => g.1) := by
              rw [hk]; exact List.mem_cons_self k ks
            obtain ⟨c, hc, hcv⟩ := group_keys_mem chs k hkmem
            have h1 : (py_float k).isSome = true := by
              rw [List.all_eq_true] at hnum
              exact hnum k hkmem
            have h2 : (py_float k).isNone = true := hcv ▸ hall c hc
            rw [Option.isNone_iff_eq_none] at h2
            rw [h2] at h1
            exact absurd h1 (by simp)
        rw [sort_volume_labels_num _ hnum, hkeys_nil] at hs
        have hv : vols = [] := (Except.ok.inj hs).symm
        rw [hlabels, hv]
        exact List.sorted_nil
      | false =>
        have hnone : ((group_by_volume chs).map (fun g => g.1)).all
            (fun v => (py_float v).isNone) = true := by
          rw [List.all_eq_true]
          intro v hv
          obtain ⟨c, hc, hcv⟩ := group_keys_mem chs v hv
          exact hcv ▸ hall c hc
        rw [sort_volume_labels_lex _ hnum hnone] at hs
        have hv : vols = List.insertionSort (fun a b : String => a ≤ b)
            ((group_by_volume chs).map (fun g => g.1)) := (Except.ok.inj hs).symm
        rw [hlabels, hv]
        exact List.sorted_insertionSort _ _

/-- C4 witness: the amended ordering evaluated on a concrete two-volume
record with numeric labels given out of order. -/
theorem C4_witness :
    List.Sorted (fun a b => dv_toRat (vol_key a) ≤ dv_toRat (vol_key b))
      (secs_w.map (fun s => s.1)) :=
  (C4_amended chs_w secs_w rfl).2.1 (by decide)

/-! ## C8: the title page -/

/-- The head of the numerically sorted volume list is a member of the list
and is numerically minimal among its elements. -/
theorem insertionSort_vol_head (vols : List String) (v : String) (rest : List String)
    (h : List.insertionSort vol_le vols = v :: rest) :
    v ∈ vols ∧ ∀ w ∈ vols, vol_le v w := by
  have hsorted := List.sorted_insertionSort vol_le vols
  have hperm := List.perm_insertionSort vol_le vols
  rw [h] at hsorted hperm
  refine ⟨hperm.subset (List.mem_cons_self v rest), ?_⟩
  intro w hw
  have hw2 : w ∈ v :: rest := hperm.symm.subset hw
  rcases List.mem_cons.mp hw2 with rfl | hw3
  · exact le_refl _
  · exact List.rel_of_sorted_cons hsorted w hw3

/-- C8: the claim that missing title fields render as empty text and that
every non-empty chapter list yields a forward link is false on the code: a
record with no title renders the placeholder "Без названия" (not empty),
and a non-empty chapter list whose volume label does not parse as a float
leaves the dead link "#" (the `ValueError` from the sort key is swallowed
by the bare `except`). -/
theorem C8_counterexample :
    rd_missing.chapters ≠ [] ∧
    (make_title_page rd_missing).title_text = "Без названия" ∧
    (make_title_page rd_missing).title_text ≠ "" ∧
    (make_title_page rd_missing).next_link = "#" := by
  refine ⟨by decide, by decide, by decide, by decide⟩

/-- C8 (amended): the title page is always built; a missing original title
or description renders as empty text while a missing title renders the
placeholder "Без названия"; an empty chapter list leaves the dead link
"#"; and when the chapter list is non-empty and every volume label parses
as a float, the forward link targets the anchor of a numerically minimal
volume label. -/
theorem C8_amended (rd : RanobeData) :
    (make_title_page rd).title_text = rd.title?.getD ("Без названия") ∧
    (make_title_page rd).orig_text = rd.original_title?.getD ("") ∧
    (make_title_page rd).desc_text = rd.description?.getD ("") ∧
    (rd.chapters = [] → (make_title_page rd).next_link = "#") ∧
    (rd.chapters ≠ [] →
      (∀ c ∈ rd.chapters, (py_float c.volume).isSome = true) →
      ∃ v ∈ rd.chapters.map (fun c => c.volume),
        (make_title_page rd).next_link = "volume_" ++ v ++ ".xhtml#volume_" ++ v ∧
        ∀ w ∈ rd.chapters.map (fun c => c.volume),
          dv_toRat (vol_key v) ≤ dv_toRat (vol_key w)) := by
  refine ⟨rfl, rfl, rfl, ?_, ?_⟩
  · intro h
    simp [make_title_page, first_volume_link, h]
  · intro hne hall
    have hlink : (make_title_page rd).next_link
        = first_volume_link (rd.chapters.map (fun c => c.volume)) := rfl
    have hvne : rd.chapters.map (fun c => c.volume) ≠ [] := by
      intro hcon
      exact hne (List.map_eq_nil_iff.mp hcon)
    have hallb : (rd.chapters.map (fun c => c.volume)).all
        (fun v => (py_float v).isSome) = true := by
      rw [List.all_eq_true]
      intro v hv
      obtain ⟨c, hc, rfl⟩ := List.mem_map.mp hv
      exact hall c hc
    cases hsortl : List.insertionSort vol_le (rd.chapters.map (fun c => c.volume)) with
    | nil =>
      have hperm := List.perm_insertionSort vol_le (rd.chapters.map (fun c => c.volume))
      rw [hsortl] at hperm
      exact absurd (List.Perm.eq_nil hperm.symm) hvne
    | cons v rest =>
      obtain ⟨hvmem, hmin⟩ := insertionSort_vol_head _ v rest hsortl
      refine ⟨v, hvmem, ?_, fun w hw => (dv_le_iff _ _).mp (hmin w hw)⟩
      rw [hlink]
      unfold first_volume_link
      cases hvols : rd.chapters.map (fun c => c.volume) with
      | nil => exact absurd hvols hvne
      | cons v0 vs0 =>
        rw [hvols] at hallb hsortl
        dsimp only
        rw [if_pos hallb, hsortl]

/-- C8 witness: the amended link property on a record with numeric volume
labels given out of order. -/
theorem C8_witness :
    ∃ v ∈ rd_nums.chapters.map (fun c => c.volume),
      (make_title_page rd_nums).next_link = "volume_" ++ v ++ ".xhtml#volume_" ++ v ∧
      ∀ w ∈ rd_nums.chapters.map (fun c => c.volume),
        dv_toRat (vol_key v) ≤ dv_toRat (vol_key w) :=
  (C8_amended rd_nums).2.2.2.2 (by decide) (by decide)

/-! ## C2: progress fractions -/

/-- C2: the claim that the fractions passed to the progress callback over
a whole pipeline run are monotonically non-decreasing is false on the
code: the pipeline reports 0.1 and then the acquisition stage restarts at
0 (and 1.0 is later followed by 0.8). -/
theorem C2_counterexample :
    ¬ List.Chain' (fun a b : ℚ => a ≤ b) (pipeline_progress []) := by
  intro h
  simp only [pipeline_progress, acquisition_progress, List.cons_append, List.nil_append,
    List.append_nil] at h
  have h2 := (List.chain'_cons.mp h).2
  have h3 := (List.chain'_cons.mp h2).1
  norm_num at h3

/-- C2 (amended): every fraction reported over a whole pipeline run lies
in `[0, 1]` (given that the per-chapter fractions do), but the sequence is
not monotonically non-decreasing. -/
theorem C2_amended (cf : List ℚ) (hcf : ∀ x ∈ cf, 0 ≤ x ∧ x ≤ 1) :
    ∀ x ∈ pipeline_progress cf, 0 ≤ x ∧ x ≤ 1 := by
  intro x hx
  simp only [pipeline_progress, acquisition_progress, List.cons_append, List.nil_append,
    List.mem_cons, List.mem_append] at hx
  rcases hx with rfl | rfl | rfl | rfl | rfl | rfl | hx
  · norm_num
  · norm_num
  · norm_num
  · norm_num
  · norm_num
  · norm_num
  rcases hx with hx | hx
  · rcases hx with hx | rfl | rfl | hx0
    · exact hcf x hx
    · norm_num
    · norm_num
    · exact absurd hx0 (List.not_mem_nil x)
  · rcases hx with rfl | rfl | hx0
    · norm_num
    · norm_num
    · exact absurd hx0 (List.not_mem_nil x)

/-- C2 witness: the bound evaluated at the 0.95 milestone of a run with no
chapters. -/
theorem C2_witness :
    ((19 : ℚ)/20 ∈ pipeline_progress []) ∧ (0 ≤ (19 : ℚ)/20 ∧ (19 : ℚ)/20 ≤ 1) :=
  ⟨by simp [pipeline_progress, acquisition_progress],
   C2_amended [] (by simp) ((19 : ℚ)/20)
     (by simp [pipeline_progress, acquisition_progress])⟩
